import Mathlib

/-! Verification development for the device-neutral core of the Protomatter
HUB75 RGB-matrix driver (src/core.c).

The C code is shallowly embedded below.  Machine integers are modelled as
Nat; where a C type in src/core.c is narrow enough that wraparound can
actually occur (the uint8_t chunk counter, the uint16_t column count, the
uint32_t screen-byte count computed in _PM_begin) the reduction modulo
2^width is written out explicitly.  Fields of the core structure whose
declaration lives in core.h (not part of src/) keep their natural-number
reading; the claims proved below only touch them in ranges where all
plausible C widths agree.

Hardware effects (GPIO register writes, micro-delays, the timer) are not
state of the embedded model: the row-handler model returns the value passed
to _PM_timerStart and the byte offset handed to the blast_* routines, and
updates exactly the fields of the core structure that _PM_row_handler
writes.  Allocation is modelled by an oracle supplying the pointer value a
malloc call returns (0 = NULL, i.e. failure), which is how _PM_init and
_PM_begin observe it.
-/

set_option maxRecDepth 8192
set_option linter.unusedVariables false
set_option linter.unnecessarySeqFocus false

namespace Protomatter

/-- Status codes of the library (PROTOMATTER_OK, _ERR_ARG, _ERR_MALLOC,
_ERR_PINS), as returned by the functions of src/core.c. -/
inductive Status where
  | ok
  | errArg
  | errMalloc
  | errPins
deriving DecidableEq

/-- Architecture facade declared in arch.h (external to src/): pin-to-register
resolution, pin bit masks, byte/word offsets of a pin within its 32-bit port,
presence of a port bit-toggle register, the shifter unroll factor
_PM_chunkSize, the timer frequency _PM_timerFreq and the floor
_PM_minMinPeriod.  Register addresses and pins are abstract naturals. -/
structure Arch where
  portOutRegister : Nat → Nat
  portBitMask : Nat → Nat
  byteOffset : Nat → Nat
  wordOffset : Nat → Nat
  hasToggle : Bool
  chunkSize : Nat
  timerFreq : Nat
  minMinPeriod : Nat

/-- The inputs _PM_begin reads from a core structure that _PM_init populated:
width (uint16_t), numPlanes (uint8_t bitDepth), parallel (rgbCount clamped to
5), numAddressLines (addrCount clamped to 5), the clock pin, the copied RGB
pin list (6 * parallel entries) and the doubleBuffer flag. -/
structure BeginIn where
  width : Nat
  numPlanes : Nat
  parallel : Nat
  numAddressLines : Nat
  clockPin : Nat
  rgbPins : List Nat
  doubleBuffer : Bool

/-- Union bit mask accumulated in _PM_begin (core.c lines 166-184): the OR of
the port bit masks of all RGB pins, seeded with the clock pin's mask when the
platform has a port toggle register and with 0 otherwise. -/
def rgbClockBitMask (arch : Arch) (inp : BeginIn) : Nat :=
  inp.rgbPins.foldl (fun m p => m ||| arch.portBitMask p)
    (if arch.hasToggle then arch.portBitMask inp.clockPin else 0)

/-- The byteMask computed in _PM_begin (core.c lines 192-200): one flag bit
per octet of the 32-bit port that holds at least one bit of bitMask. -/
def byteMaskOf (bitMask : Nat) : Nat :=
  (if bitMask &&& 0xFF000000 ≠ 0 then 0b1000 else 0) |||
  (if bitMask &&& 0x00FF0000 ≠ 0 then 0b0100 else 0) |||
  (if bitMask &&& 0x0000FF00 ≠ 0 then 0b0010 else 0) |||
  (if bitMask &&& 0x000000FF ≠ 0 then 0b0001 else 0)

/-- The switch on byteMask in _PM_begin (core.c lines 201-218) choosing the
element width of the screen buffer. -/
def bytesPerElementOf (bitMask : Nat) : Nat :=
  match byteMaskOf bitMask with
  | 0b0001 | 0b0010 | 0b0100 | 0b1000 => 1
  | 0b0011 | 0b1100 => 2
  | _ => 4

/-- portOffset selection of _PM_begin (core.c lines 250, 268, 299): the byte
offset of rgbPins[0] when bytesPerElement = 1, its word offset when
bytesPerElement = 2, and 0 in the 32-bit case. -/
def portOffsetSel (bpe byteOff wordOff : Nat) : Nat :=
  if bpe = 1 then byteOff else if bpe = 2 then wordOff else 0

/-- Layout quantities computed by a successful _PM_begin (core.c lines
186-241 and 354-360). screenBytes is the total matrix-buffer byte count
(doubled when double-buffered); allocBytes adds the trailing rgbMask table
bytes, giving the size of the single allocation _PM_begin performs. -/
structure BeginPlan where
  bytesPerElement : Nat
  portOffset : Nat
  numRowPairs : Nat
  columns : Nat
  bufferSize : Nat
  screenBytes : Nat
  allocBytes : Nat
  minPeriod : Nat
deriving DecidableEq

/-- The layout-planning prefix of _PM_begin (core.c lines 162-241 and
354-360), for a core populated by _PM_init.  Returns none exactly when some
RGB pin is not on the clock pin's port (the PROTOMATTER_ERR_PINS return).
chunks is a uint8_t in the C code and columns a uint16_t, hence the explicit
reductions; screenBytes and bufferSize are uint32_t. -/
def _PM_begin_plan (arch : Arch) (inp : BeginIn) : Option BeginPlan :=
  if inp.rgbPins.all
      (fun p => arch.portOutRegister p = arch.portOutRegister inp.clockPin) then
    let bitMask := rgbClockBitMask arch inp
    let bpe := bytesPerElementOf bitMask
    let numRowPairs := 1 <<< inp.numAddressLines
    let chunks := ((inp.width + (arch.chunkSize - 1)) / arch.chunkSize) % 256
    let columns := (chunks * arch.chunkSize) % 65536
    let screenBytes0 := (columns * numRowPairs * inp.numPlanes * bpe) % 4294967296
    let bufferSize := screenBytes0
    let screenBytes :=
      if inp.doubleBuffer then (screenBytes0 * 2) % 4294967296 else screenBytes0
    let rgbMaskBytes := inp.parallel * 6 * bpe
    let portOffset := portOffsetSel bpe
      (arch.byteOffset (inp.rgbPins.headD 0)) (arch.wordOffset (inp.rgbPins.headD 0))
    let minPeriodPerFrame := arch.timerFreq / 250
    let minPeriodPerLine := minPeriodPerFrame / numRowPairs
    let mp := minPeriodPerLine / ((1 <<< inp.numPlanes) - 1)
    let minPeriod := if mp < arch.minMinPeriod then arch.minMinPeriod else mp
    some ⟨bpe, portOffset, numRowPairs, columns, bufferSize, screenBytes,
      screenBytes + rgbMaskBytes, minPeriod⟩
  else none

/-- Predicate of claim C1: all set bits of the mask lie within one octet of
the 32-bit port word. -/
def inSingleOctet (m : Nat) : Prop :=
  m &&& 0xFF = m ∨ m &&& 0xFF00 = m ∨ m &&& 0xFF0000 = m ∨ m &&& 0xFF000000 = m

instance (m : Nat) : Decidable (inSingleOctet m) := by
  unfold inSingleOctet; infer_instance

/-- Predicate of claim C1: all set bits lie within the lower half-word
(octets 0-1). -/
def inLowerHalfWord (m : Nat) : Prop := m &&& 0xFFFF = m

instance (m : Nat) : Decidable (inLowerHalfWord m) := by
  unfold inLowerHalfWord; infer_instance

/-- Predicate of claim C1: all set bits lie within the upper half-word
(octets 2-3). -/
def inUpperHalfWord (m : Nat) : Prop := m &&& 0xFFFF0000 = m

instance (m : Nat) : Decidable (inUpperHalfWord m) := by
  unfold inUpperHalfWord; infer_instance

/-- Gamma-table entry of _PM_begin for numPlanes > 6 (core.c lines 343-351):
(uint16_t)(pow((float)i / den, 2.6) * top + 0.5).  The C float computation is
modelled with exact real arithmetic; the claims proved about it only evaluate
it at i = 0 and i = den, where pow is exact (pow(0, 2.6) = 0 and
pow(1, 2.6) = 1 also in IEEE arithmetic) and so are the surrounding products
and sums, so the model and the float code agree there.  The cast to uint16_t
truncates the nonnegative result, i.e. takes the floor. -/
noncomputable def gammaRemapVal (den top i : Nat) : Nat :=
  Nat.floor (((i : ℝ) / (den : ℝ)) ^ ((2.6 : ℝ)) * (top : ℝ) + 1 / 2)

/-- remap_rb table of _PM_begin (core.c lines 314-352): 5-bit red/blue input
i (0..31) to plane index.  Right shift for numPlanes < 6, msb-replication for
numPlanes = 6, gamma correction above. -/
noncomputable def remap_rb (numPlanes i : Nat) : Nat :=
  if numPlanes < 6 then i >>> (5 - numPlanes)
  else if numPlanes = 6 then (i <<< 1) ||| (i >>> 4)
  else gammaRemapVal 31 ((1 <<< numPlanes) - 1) i

/-- remap_g table of _PM_begin (core.c lines 314-352): 6-bit green input
i (0..63) to plane index. -/
noncomputable def remap_g (numPlanes i : Nat) : Nat :=
  if numPlanes < 6 then i >>> (6 - numPlanes)
  else if numPlanes = 6 then i
  else gammaRemapVal 63 ((1 <<< numPlanes) - 1) i

/-- The fields of the core structure read and written by _PM_row_handler. -/
structure PMState where
  numPlanes : Nat
  numRowPairs : Nat
  plane : Nat
  row : Nat
  prevRow : Nat
  swapBuffers : Nat
  activeBuffer : Nat
  frameCount : Nat
  bitZeroPeriod : Nat
  minPeriod : Nat
  doubleBuffer : Bool
  bufferSize : Nat
  bytesPerElement : Nat
  width : Nat
deriving DecidableEq

/-- Result of one _PM_row_handler invocation: the updated core state, the
tick count passed to _PM_timerStart, and the byte offset into screenData
handed to blast_byte/word/long. -/
structure RowHandlerOut where
  st : PMState
  armed : Nat
  srcOffset : Nat
deriving DecidableEq

/-- One invocation of _PM_row_handler (core.c lines 498-613) on the core
state, given the elapsed tick count returned by _PM_timerStop.  The OE,
latch and address-line register writes and the delays have no effect on the
core structure and are not modelled; prevRow is updated exactly when the
address-line block runs (prevPlane = 0).  The cursor advance, buffer swap,
frame count, period filter, timer argument and blast source offset follow
the C code line by line. -/
def _PM_row_handler (chunkSize : Nat) (core : PMState) (elapsed : Nat) :
    RowHandlerOut :=
  let prevPlane := core.plane
  let bitZeroPeriod :=
    if prevPlane = 1 ∨ core.numPlanes = 1 then
      let p := (core.bitZeroPeriod * 7 + elapsed) / 8
      if p < core.minPeriod then core.minPeriod else p
    else core.bitZeroPeriod
  let prevRow := if prevPlane = 0 then core.row else core.prevRow
  let core1 :=
    if core.plane + 1 ≥ core.numPlanes then
      if core.row + 1 ≥ core.numRowPairs then
        { core with
          plane := 0
          row := 0
          activeBuffer :=
            if core.swapBuffers ≠ 0 then 1 - core.activeBuffer
            else core.activeBuffer
          swapBuffers := if core.swapBuffers ≠ 0 then 0 else core.swapBuffers
          frameCount := core.frameCount + 1 }
      else { core with plane := 0, row := core.row + 1 }
    else { core with plane := core.plane + 1 }
  let st := { core1 with bitZeroPeriod := bitZeroPeriod, prevRow := prevRow }
  let armed := bitZeroPeriod <<< prevPlane
  let elementsPerLine := chunkSize * ((core.width + (chunkSize - 1)) / chunkSize)
  let srcOffset0 :=
    elementsPerLine * (core.numPlanes * st.row + st.plane) * core.bytesPerElement
  let srcOffset :=
    if core.doubleBuffer then srcOffset0 + core.bufferSize * st.activeBuffer
    else srcOffset0
  ⟨st, armed, srcOffset⟩

/-- k repeated invocations of _PM_row_handler; e j is the elapsed tick count
the timer reports on the j-th invocation. -/
def rhIter (chunkSize : Nat) (e : Nat → Nat) (s : PMState) : Nat → PMState
  | 0 => s
  | k + 1 => (_PM_row_handler chunkSize (rhIter chunkSize e s k) (e k)).st

/-- Linearised cursor position: row-major with plane as the minor index. -/
def cursorIdx (s : PMState) : Nat := s.row * s.numPlanes + s.plane

/-- The three heap pointers owned by a core structure, by value (0 = NULL):
the RGB pin-list copy and address-line array allocated by _PM_init, and the
screenData block allocated by _PM_begin. -/
structure CoreMem where
  rgbPins : Nat
  addr : Nat
  screenData : Nat
deriving DecidableEq

/-- Allocation behaviour of _PM_init (core.c lines 128-149) given the pointer
values the two _PM_ALLOCATOR calls return (0 = failure): addr and screenData
are nulled first; the rgbPins allocation failing rolls everything back, the
addr allocation failing frees and nulls rgbPins. -/
def _PM_init_mem (rgbPtr addrPtr : Nat) (c : CoreMem) : Status × CoreMem :=
  let c0 : CoreMem := { c with addr := 0, screenData := 0 }
  if rgbPtr ≠ 0 then
    if addrPtr ≠ 0 then (.ok, { c0 with rgbPins := rgbPtr, addr := addrPtr })
    else (.errMalloc, { c0 with rgbPins := 0 })
  else (.errMalloc, { c0 with rgbPins := 0 })

/-- Allocation behaviour of _PM_begin (core.c lines 153-241) on a core's
pointers, given the pointer value its single _PM_ALLOCATOR call returns
(0 = failure).  A NULL rgbPins list gives PROTOMATTER_ERR_MALLOC; a pin/port
mismatch (the plan returning none) gives PROTOMATTER_ERR_PINS before any
allocation; a failed screenData allocation leaves screenData = NULL. -/
def _PM_begin_mem (arch : Arch) (inp : BeginIn) (screenPtr : Nat)
    (c : CoreMem) : Status × CoreMem :=
  if c.rgbPins = 0 then (.errMalloc, c)
  else
    match _PM_begin_plan arch inp with
    | none => (.errPins, c)
    | some _ =>
      if screenPtr = 0 then (.errMalloc, { c with screenData := 0 })
      else (.ok, { c with screenData := screenPtr })

/-- Model of _PM_free (core.c lines 474-487) on a non-NULL core: releases screenData,
addr and rgbPins whenever the pointer is non-NULL, and nulls only rgbPins.
Returns the updated pointers and the list of pointer values released, in
release order. -/
def _PM_free_mem (c : CoreMem) : CoreMem × List Nat :=
  let freedScreen := if c.screenData ≠ 0 then [c.screenData] else []
  let freedAddr := if c.addr ≠ 0 then [c.addr] else []
  let freedRgb := if c.rgbPins ≠ 0 then [c.rgbPins] else []
  let c1 := if c.rgbPins ≠ 0 then { c with rgbPins := 0 } else c
  (c1, freedScreen ++ freedAddr ++ freedRgb)

/-- Arch instance for concrete witnesses: every pin on one port, pin p on
port bit p % 8 (all masks inside octet 0), chunk size 8. -/
def archW : Arch :=
  ⟨fun _ => 4096, fun p => 1 <<< (p % 8), fun _ => 0, fun _ => 0,
    false, 8, 48000000, 20⟩

/-- Begin inputs for concrete witnesses: the end-to-end scenario width 64,
4 planes, 4 address lines of the spec. -/
def beginInW : BeginIn :=
  ⟨64, 4, 1, 4, 0, [1, 2, 3, 4, 5, 6], false⟩

/-- Arch instance for the C2 counterexample: same ports and masks as archW. -/
def archCex : Arch := archW

/-- Begin inputs for the C2 counterexample: width 2048 with chunk size 8
makes the uint8_t chunk counter of _PM_begin wrap to 0. -/
def beginInCex : BeginIn :=
  ⟨2048, 1, 1, 0, 0, [1, 2, 3, 4, 5, 6], false⟩

/-- Arch instance for the C8 counterexample: pin p lives on port address p,
so the RGB pins and the clock pin are on different ports. -/
def archPinsBad : Arch :=
  ⟨fun p => p, fun p => 1 <<< (p % 8), fun _ => 0, fun _ => 0,
    false, 8, 48000000, 20⟩

/-- Core pointers after a successful _PM_init, for witnesses: rgbPins and
addr allocated, screenData still NULL. -/
def coreMemW : CoreMem := ⟨5, 7, 0⟩

/-- Row-handler state for witnesses: 2 planes, 2 row pairs, cursor at the
last (row, plane) pair, swap pending. -/
def stateW : PMState :=
  ⟨2, 2, 1, 1, 0, 1, 0, 0, 320, 20, true, 256, 1, 64⟩

/-- Row-handler state for witnesses: 3 planes, 4 row pairs, cursor at
(row, plane) = (1, 2), no swap pending. -/
def stateW2 : PMState :=
  ⟨3, 4, 2, 1, 0, 0, 0, 0, 320, 20, false, 768, 1, 64⟩

/-- Elapsed-tick sequence for witnesses: the timer reports 40 ticks on every
invocation. -/
def elapsedW : Nat → Nat := fun _ => 40

/-- The plan _PM_begin computes for archW and beginInW (checked by rfl in the
witnesses below): byte elements at offset 0, 16 row pairs, 64 columns, a
4096-byte buffer, 4102 bytes allocated, minimum period 800. -/
def planW : BeginPlan := ⟨1, 0, 16, 64, 4096, 4096, 4102, 800⟩

/-- Characterization of the fields of a successful _PM_begin plan, used by
the layout claims below. -/
theorem begin_plan_eq (arch : Arch) (inp : BeginIn) (p : BeginPlan)
    (h : _PM_begin_plan arch inp = some p) :
    p.bytesPerElement = bytesPerElementOf (rgbClockBitMask arch inp) ∧
    p.portOffset = portOffsetSel p.bytesPerElement
      (arch.byteOffset (inp.rgbPins.headD 0))
      (arch.wordOffset (inp.rgbPins.headD 0)) ∧
    p.numRowPairs = 2 ^ inp.numAddressLines ∧
    p.columns =
      (inp.width + (arch.chunkSize - 1)) / arch.chunkSize % 256 *
        arch.chunkSize % 65536 ∧
    p.bufferSize =
      p.columns * p.numRowPairs * inp.numPlanes * p.bytesPerElement %
        4294967296 ∧
    p.screenBytes =
      (if inp.doubleBuffer then p.bufferSize * 2 % 4294967296
       else p.bufferSize) ∧
    p.allocBytes = p.screenBytes + inp.parallel * 6 * p.bytesPerElement ∧
    p.minPeriod =
      (if arch.timerFreq / 250 / p.numRowPairs / (2 ^ inp.numPlanes - 1) <
          arch.minMinPeriod
       then arch.minMinPeriod
       else arch.timerFreq / 250 / p.numRowPairs / (2 ^ inp.numPlanes - 1)) := by
  unfold _PM_begin_plan at h
  split at h
  · rw [Option.some.injEq] at h
    subst h
    refine ⟨rfl, rfl, ?_, rfl, ?_, rfl, rfl, ?_⟩ <;>
      simp [Nat.shiftLeft_eq]
  · cases h

/-- C6: on each row-handler invocation, bitZeroPeriod is updated to
(7 * bitZeroPeriod + elapsed) / 8 (integer division), raised to minPeriod if
the result is below minPeriod, exactly when the captured prevPlane equals 1
or numPlanes equals 1; for every other prevPlane value it is unchanged. -/
theorem claim_C6_period_filter (chunkSize : Nat) (s : PMState) (elapsed : Nat) :
    (_PM_row_handler chunkSize s elapsed).st.bitZeroPeriod =
      if s.plane = 1 ∨ s.numPlanes = 1 then
        max s.minPeriod ((7 * s.bitZeroPeriod + elapsed) / 8)
      else s.bitZeroPeriod := by
  simp only [_PM_row_handler, Nat.max_def]
  split_ifs <;> omega

/-- C5: the next timer interval is armed with bitZeroPeriod shifted left by
prevPlane, the plane index captured before the cursor advance (using the
post-filter bitZeroPeriod); absent the adaptive plane-0 update (prevPlane
not 1 and numPlanes not 1), the armed exposure equals the incoming
bitZeroPeriod times 2 ^ prevPlane. -/
theorem claim_C5_armed_exposure (chunkSize : Nat) (s : PMState) (elapsed : Nat) :
    (_PM_row_handler chunkSize s elapsed).armed =
      (_PM_row_handler chunkSize s elapsed).st.bitZeroPeriod * 2 ^ s.plane ∧
    (¬ (s.plane = 1 ∨ s.numPlanes = 1) →
      (_PM_row_handler chunkSize s elapsed).armed =
        s.bitZeroPeriod * 2 ^ s.plane) := by
  constructor
  · simp only [_PM_row_handler]
    split_ifs <;> simp [Nat.shiftLeft_eq]
  · intro h
    simp only [_PM_row_handler]
    rw [if_neg h]
    simp [Nat.shiftLeft_eq]

/-- Witness for C5 at a concrete state (plane 2 of 3, so no adaptive
update applies). -/
theorem claim_C5_witness :
    (_PM_row_handler 8 stateW2 40).armed =
      (_PM_row_handler 8 stateW2 40).st.bitZeroPeriod * 2 ^ stateW2.plane ∧
    (¬ (stateW2.plane = 1 ∨ stateW2.numPlanes = 1) →
      (_PM_row_handler 8 stateW2 40).armed =
        stateW2.bitZeroPeriod * 2 ^ stateW2.plane) :=
  claim_C5_armed_exposure 8 stateW2 40

/-- C10: _PM_free leaves screenData and addr holding their prior pointer
values (so they stay non-NULL whenever they were) and nulls only rgbPins; a
second _PM_free on the result re-enters the screenData and addr release
branches (and not the rgbPins branch). -/
theorem claim_C10_free_fields (c : CoreMem) :
    (_PM_free_mem c).1.screenData = c.screenData ∧
    (_PM_free_mem c).1.addr = c.addr ∧
    (_PM_free_mem c).1.rgbPins = 0 ∧
    (c.screenData ≠ 0 → (_PM_free_mem c).1.screenData ≠ 0) ∧
    (c.addr ≠ 0 → (_PM_free_mem c).1.addr ≠ 0) ∧
    (_PM_free_mem (_PM_free_mem c).1).2 =
      (if c.screenData ≠ 0 then [c.screenData] else []) ++
      (if c.addr ≠ 0 then [c.addr] else []) := by
  unfold _PM_free_mem
  split_ifs <;> simp_all

/-- Witness for C10 at concrete pointers (screenData NULL, addr and rgbPins
allocated, as after _PM_init). -/
theorem claim_C10_witness :
    (_PM_free_mem coreMemW).1.screenData = coreMemW.screenData ∧
    (_PM_free_mem coreMemW).1.addr = coreMemW.addr ∧
    (_PM_free_mem coreMemW).1.rgbPins = 0 ∧
    (coreMemW.screenData ≠ 0 → (_PM_free_mem coreMemW).1.screenData ≠ 0) ∧
    (coreMemW.addr ≠ 0 → (_PM_free_mem coreMemW).1.addr ≠ 0) ∧
    (_PM_free_mem (_PM_free_mem coreMemW).1).2 =
      (if coreMemW.screenData ≠ 0 then [coreMemW.screenData] else []) ++
      (if coreMemW.addr ≠ 0 then [coreMemW.addr] else []) :=
  claim_C10_free_fields coreMemW

/-- C8 counterexample: with the RGB pins on different ports than the clock
pin and a core freshly populated by _PM_init (rgbPins = 5, addr = 7,
screenData NULL), _PM_begin returns PROTOMATTER_ERR_PINS without touching the
pointers, yet a subsequent _PM_free is not a no-op: it releases the addr and
rgbPins allocations (made by _PM_init) and changes the core. -/
theorem claim_C8_counterexample :
    (_PM_begin_mem archPinsBad beginInW 9 coreMemW).1 = Status.errPins ∧
    (_PM_begin_mem archPinsBad beginInW 9 coreMemW).2 = coreMemW ∧
    (_PM_free_mem coreMemW).2 = [7, 5] ∧
    (_PM_free_mem coreMemW).1 ≠ coreMemW := by decide

/-- C8 as amended: for a core on which _PM_init succeeded (rgbPins non-NULL,
screenData NULL), _PM_begin either returns OK with screenData non-NULL, or
returns PROTOMATTER_ERR_PINS or PROTOMATTER_ERR_MALLOC with every allocation
made by _PM_begin rolled back — screenData is still NULL — so a subsequent
_PM_free releases only the init-time addr and rgbPins allocations and its
screenData branch is a no-op. -/
theorem claim_C8_begin_rollback (arch : Arch) (inp : BeginIn) (screenPtr : Nat)
    (c : CoreMem) (hrgb : c.rgbPins ≠ 0) (hscreen : c.screenData = 0) :
    ((_PM_begin_mem arch inp screenPtr c).1 = Status.ok →
      (_PM_begin_mem arch inp screenPtr c).2.screenData ≠ 0) ∧
    ((_PM_begin_mem arch inp screenPtr c).1 ≠ Status.ok →
      ((_PM_begin_mem arch inp screenPtr c).1 = Status.errPins ∨
        (_PM_begin_mem arch inp screenPtr c).1 = Status.errMalloc) ∧
      (_PM_begin_mem arch inp screenPtr c).2.screenData = 0 ∧
      (_PM_free_mem (_PM_begin_mem arch inp screenPtr c).2).2 =
        (if (_PM_begin_mem arch inp screenPtr c).2.addr ≠ 0
          then [(_PM_begin_mem arch inp screenPtr c).2.addr] else []) ++
        (if (_PM_begin_mem arch inp screenPtr c).2.rgbPins ≠ 0
          then [(_PM_begin_mem arch inp screenPtr c).2.rgbPins] else [])) := by
  unfold _PM_begin_mem _PM_free_mem
  rw [if_neg (by simpa using hrgb)]
  cases hplan : _PM_begin_plan arch inp
  · simp_all
  · simp_all
    split_ifs <;> simp_all

/-- Witness for C8 (amended) at concrete matched-port pins and a successful
allocation: _PM_begin returns OK with screenData = 9. -/
theorem claim_C8_witness :
    ((_PM_begin_mem archW beginInW 9 coreMemW).1 = Status.ok →
      (_PM_begin_mem archW beginInW 9 coreMemW).2.screenData ≠ 0) ∧
    ((_PM_begin_mem archW beginInW 9 coreMemW).1 ≠ Status.ok →
      ((_PM_begin_mem archW beginInW 9 coreMemW).1 = Status.errPins ∨
        (_PM_begin_mem archW beginInW 9 coreMemW).1 = Status.errMalloc) ∧
      (_PM_begin_mem archW beginInW 9 coreMemW).2.screenData = 0 ∧
      (_PM_free_mem (_PM_begin_mem archW beginInW 9 coreMemW).2).2 =
        (if (_PM_begin_mem archW beginInW 9 coreMemW).2.addr ≠ 0
          then [(_PM_begin_mem archW beginInW 9 coreMemW).2.addr] else []) ++
        (if (_PM_begin_mem archW beginInW 9 coreMemW).2.rgbPins ≠ 0
          then [(_PM_begin_mem archW beginInW 9 coreMemW).2.rgbPins] else [])) :=
  claim_C8_begin_rollback archW beginInW 9 coreMemW (by decide) (by decide)

/-- C9: for every successful _PM_begin, minPeriod is the sequential integer
division ((timerFreq / 250) / numRowPairs) / (2 ^ numPlanes - 1), raised to
the arch floor minMinPeriod when smaller. -/
theorem claim_C9_min_period (arch : Arch) (inp : BeginIn) (p : BeginPlan)
    (h : _PM_begin_plan arch inp = some p) :
    p.minPeriod =
      if arch.timerFreq / 250 / p.numRowPairs / (2 ^ inp.numPlanes - 1) <
          arch.minMinPeriod
      then arch.minMinPeriod
      else arch.timerFreq / 250 / p.numRowPairs / (2 ^ inp.numPlanes - 1) := by
  obtain ⟨-, -, h3, -, -, -, -, h8⟩ := begin_plan_eq arch inp p h
  rw [h8]

/-- Witness for C9 at the concrete archW / beginInW configuration. -/
theorem claim_C9_witness :
    _PM_begin_plan archW beginInW = some planW ∧
    planW.minPeriod =
      if archW.timerFreq / 250 / planW.numRowPairs / (2 ^ beginInW.numPlanes - 1) <
          archW.minMinPeriod
      then archW.minMinPeriod
      else archW.timerFreq / 250 / planW.numRowPairs /
        (2 ^ beginInW.numPlanes - 1) :=
  ⟨by decide, claim_C9_min_period archW beginInW planW (by decide)⟩

/-- The element width chosen by _PM_begin is always at most 4 bytes. -/
theorem bytesPerElementOf_le (m : Nat) : bytesPerElementOf m ≤ 4 := by
  unfold bytesPerElementOf
  split <;> omega

/-- C2 as amended: for every successful _PM_begin whose width keeps the
uint8_t chunk counter in range (width at most 255 * chunkSize) — with the
chunk size one of the arch-supported unroll factors, numPlanes a uint8_t
value and the address-line count clamped as _PM_init leaves it — bufferSize
equals columns * numRowPairs * numPlanes * bytesPerElement with columns =
ceil(width / chunkSize) * chunkSize and numRowPairs = 2 ^ numAddressLines,
the total allocation is bufferSize * (1 + doubleBuffer) plus
6 * parallel * bytesPerElement trailing rgbMask bytes, and the concrete
width 64 / 4 planes / 4 address lines / byte-wide case gives 4096 bytes. -/
theorem claim_C2_buffer_size (arch : Arch) (inp : BeginIn) (p : BeginPlan)
    (h : _PM_begin_plan arch inp = some p)
    (hcs : arch.chunkSize ∈ ([1, 2, 4, 8, 16, 32, 64] : List Nat))
    (hw : inp.width ≤ 255 * arch.chunkSize)
    (hplanes : inp.numPlanes ≤ 255)
    (haddr : inp.numAddressLines ≤ 5) :
    p.numRowPairs = 2 ^ inp.numAddressLines ∧
    p.columns =
      (inp.width + (arch.chunkSize - 1)) / arch.chunkSize * arch.chunkSize ∧
    p.bufferSize = p.columns * p.numRowPairs * inp.numPlanes *
      p.bytesPerElement ∧
    p.allocBytes = p.bufferSize * (1 + (if inp.doubleBuffer then 1 else 0)) +
      6 * inp.parallel * p.bytesPerElement ∧
    (inp.width = 64 ∧ inp.numPlanes = 4 ∧ inp.numAddressLines = 4 ∧
      p.bytesPerElement = 1 → p.bufferSize = 4096) := by
  obtain ⟨h1, h2, h3, h4, h5, h6, h7, h8⟩ := begin_plan_eq arch inp p h
  have hcs' : arch.chunkSize = 1 ∨ arch.chunkSize = 2 ∨ arch.chunkSize = 4 ∨
      arch.chunkSize = 8 ∨ arch.chunkSize = 16 ∨ arch.chunkSize = 32 ∨
      arch.chunkSize = 64 := by simpa using hcs
  have hcs1 : 1 ≤ arch.chunkSize ∧ arch.chunkSize ≤ 64 := by omega
  have hchunks : (inp.width + (arch.chunkSize - 1)) / arch.chunkSize < 256 := by
    rw [Nat.div_lt_iff_lt_mul (by omega)]
    omega
  have hcolsmod : p.columns =
      (inp.width + (arch.chunkSize - 1)) / arch.chunkSize * arch.chunkSize := by
    rw [h4, Nat.mod_eq_of_lt hchunks, Nat.mod_eq_of_lt]
    have : (inp.width + (arch.chunkSize - 1)) / arch.chunkSize *
        arch.chunkSize ≤ 255 * 64 :=
      Nat.mul_le_mul (by omega) hcs1.2
    omega
  have hcols_le : p.columns ≤ 16320 := by
    rw [hcolsmod]
    have : (inp.width + (arch.chunkSize - 1)) / arch.chunkSize *
        arch.chunkSize ≤ 255 * 64 :=
      Nat.mul_le_mul (by omega) hcs1.2
    omega
  have hbpe : p.bytesPerElement ≤ 4 := by
    rw [h1]; exact bytesPerElementOf_le _
  have hrp : p.numRowPairs ≤ 32 := by
    rw [h3]
    calc 2 ^ inp.numAddressLines ≤ 2 ^ 5 :=
          Nat.pow_le_pow_right (by omega) haddr
      _ = 32 := by norm_num
  have hprod : p.columns * p.numRowPairs * inp.numPlanes *
      p.bytesPerElement ≤ 532684800 := by
    calc p.columns * p.numRowPairs * inp.numPlanes * p.bytesPerElement ≤
          16320 * 32 * 255 * 4 :=
          Nat.mul_le_mul (Nat.mul_le_mul (Nat.mul_le_mul hcols_le hrp) hplanes)
            hbpe
      _ = 532684800 := by norm_num
  have hbuf : p.bufferSize =
      p.columns * p.numRowPairs * inp.numPlanes * p.bytesPerElement := by
    rw [h5, Nat.mod_eq_of_lt (by omega)]
  refine ⟨h3, hcolsmod, hbuf, ?_, ?_⟩
  · rw [h7, h6]
    cases hdb : inp.doubleBuffer
    · simp only [Bool.false_eq_true, if_false]
      ring
    · simp only [if_true]
      rw [Nat.mod_eq_of_lt (by omega)]
      ring
  · rintro ⟨hw64, hp4, ha4, hbpe1⟩
    rw [hbuf, hcolsmod, h3, hw64, hp4, ha4, hbpe1]
    rcases hcs' with hc | hc | hc | hc | hc | hc | hc <;> rw [hc] <;> norm_num

/-- Witness for C2 (amended) at the concrete archW / beginInW
configuration. -/
theorem claim_C2_witness :
    planW.numRowPairs = 2 ^ beginInW.numAddressLines ∧
    planW.columns = (beginInW.width + (archW.chunkSize - 1)) /
      archW.chunkSize * archW.chunkSize ∧
    planW.bufferSize = planW.columns * planW.numRowPairs *
      beginInW.numPlanes * planW.bytesPerElement ∧
    planW.allocBytes =
      planW.bufferSize * (1 + (if beginInW.doubleBuffer then 1 else 0)) +
      6 * beginInW.parallel * planW.bytesPerElement ∧
    (beginInW.width = 64 ∧ beginInW.numPlanes = 4 ∧
      beginInW.numAddressLines = 4 ∧ planW.bytesPerElement = 1 →
      planW.bufferSize = 4096) :=
  claim_C2_buffer_size archW beginInW planW (by decide) (by decide) (by decide)
    (by decide) (by decide)

/-- C2 counterexample: with chunk size 8 and width 2048, _PM_begin succeeds
(bytesPerElement 1) but its uint8_t chunk counter wraps to 0, so bufferSize
is 0 while the claimed formula columns * numRowPairs * numPlanes *
bytesPerElement with columns = ceil(width / chunkSize) * chunkSize is 2048. -/
theorem claim_C2_counterexample :
    (_PM_begin_plan archCex beginInCex).map BeginPlan.bufferSize = some 0 ∧
    (_PM_begin_plan archCex beginInCex).map BeginPlan.bytesPerElement = some 1 ∧
    (beginInCex.width + archCex.chunkSize - 1) / archCex.chunkSize *
        archCex.chunkSize * (1 <<< beginInCex.numAddressLines) *
        beginInCex.numPlanes * 1 = 2048 := by decide

/-- C3: from an in-range cursor state with a 0/1 swap flag, the row handler
changes swapBuffers only in the step whose advance wraps the cursor to
(row, plane) = (0, 0), and there only from 1 to 0; in exactly that step
with the flag set it flips activeBuffer to 1 - activeBuffer; activeBuffer
changes in no other step, and at a frame boundary with swapBuffers = 0 it
is unchanged. -/
theorem claim_C3_swap_boundary (chunkSize elapsed : Nat) (s : PMState)
    (hp : s.plane < s.numPlanes) (hr : s.row < s.numRowPairs)
    (hsw : s.swapBuffers ≤ 1) :
    ((_PM_row_handler chunkSize s elapsed).st.swapBuffers ≠ s.swapBuffers →
      (_PM_row_handler chunkSize s elapsed).st.plane = 0 ∧
      (_PM_row_handler chunkSize s elapsed).st.row = 0 ∧
      s.swapBuffers = 1 ∧
      (_PM_row_handler chunkSize s elapsed).st.swapBuffers = 0) ∧
    ((_PM_row_handler chunkSize s elapsed).st.plane = 0 ∧
      (_PM_row_handler chunkSize s elapsed).st.row = 0 ∧
      s.swapBuffers = 1 →
      (_PM_row_handler chunkSize s elapsed).st.activeBuffer =
        1 - s.activeBuffer ∧
      (_PM_row_handler chunkSize s elapsed).st.swapBuffers = 0) ∧
    ((_PM_row_handler chunkSize s elapsed).st.activeBuffer ≠
        s.activeBuffer →
      (_PM_row_handler chunkSize s elapsed).st.plane = 0 ∧
      (_PM_row_handler chunkSize s elapsed).st.row = 0 ∧
      s.swapBuffers = 1) ∧
    ((_PM_row_handler chunkSize s elapsed).st.plane = 0 ∧
      (_PM_row_handler chunkSize s elapsed).st.row = 0 ∧
      s.swapBuffers = 0 →
      (_PM_row_handler chunkSize s elapsed).st.activeBuffer =
        s.activeBuffer) := by
  simp only [_PM_row_handler]
  split_ifs <;> simp_all <;> omega

/-- Witness for C3 at a concrete boundary state (2 planes, 2 row pairs,
cursor at the last pair, swap flag set). -/
theorem claim_C3_witness :
    ((_PM_row_handler 8 stateW 40).st.swapBuffers ≠ stateW.swapBuffers →
      (_PM_row_handler 8 stateW 40).st.plane = 0 ∧
      (_PM_row_handler 8 stateW 40).st.row = 0 ∧
      stateW.swapBuffers = 1 ∧
      (_PM_row_handler 8 stateW 40).st.swapBuffers = 0) ∧
    ((_PM_row_handler 8 stateW 40).st.plane = 0 ∧
      (_PM_row_handler 8 stateW 40).st.row = 0 ∧
      stateW.swapBuffers = 1 →
      (_PM_row_handler 8 stateW 40).st.activeBuffer =
        1 - stateW.activeBuffer ∧
      (_PM_row_handler 8 stateW 40).st.swapBuffers = 0) ∧
    ((_PM_row_handler 8 stateW 40).st.activeBuffer ≠ stateW.activeBuffer →
      (_PM_row_handler 8 stateW 40).st.plane = 0 ∧
      (_PM_row_handler 8 stateW 40).st.row = 0 ∧
      stateW.swapBuffers = 1) ∧
    ((_PM_row_handler 8 stateW 40).st.plane = 0 ∧
      (_PM_row_handler 8 stateW 40).st.row = 0 ∧
      stateW.swapBuffers = 0 →
      (_PM_row_handler 8 stateW 40).st.activeBuffer =
        stateW.activeBuffer) :=
  claim_C3_swap_boundary 8 40 stateW (by decide) (by decide) (by decide)

/-- Decoding a row-major linear cursor index: bounds, minor (plane) and
major (row) components. -/
theorem cursor_decode (P R row plane : Nat) (hp : plane < P) (hr : row < R) :
    row * P + plane < R * P ∧
    (row * P + plane) % P = plane ∧
    (row * P + plane) / P = row := by
  have hP : 0 < P := lt_of_le_of_lt (Nat.zero_le _) hp
  refine ⟨?_, ?_, ?_⟩
  · calc row * P + plane < row * P + P := by omega
      _ = (row + 1) * P := by ring
      _ ≤ R * P := Nat.mul_le_mul_right _ (by omega)
  · rw [show row * P + plane = P * row + plane by ring, Nat.mul_add_mod]
    exact Nat.mod_eq_of_lt hp
  · rw [show row * P + plane = P * row + plane by ring, Nat.mul_add_div hP,
      Nat.div_eq_of_lt hp, Nat.add_zero]

/-- One _PM_row_handler invocation advances the linear cursor by one modulo
numRowPairs * numPlanes and bumps frameCount exactly on wrap to zero. -/
theorem row_handler_cursor_step (cs e : Nat) (s : PMState)
    (hp : s.plane < s.numPlanes) (hr : s.row < s.numRowPairs) :
    (_PM_row_handler cs s e).st.numPlanes = s.numPlanes ∧
    (_PM_row_handler cs s e).st.numRowPairs = s.numRowPairs ∧
    (_PM_row_handler cs s e).st.plane =
      (cursorIdx s + 1) % (s.numRowPairs * s.numPlanes) % s.numPlanes ∧
    (_PM_row_handler cs s e).st.row =
      (cursorIdx s + 1) % (s.numRowPairs * s.numPlanes) / s.numPlanes ∧
    (_PM_row_handler cs s e).st.frameCount = s.frameCount +
      (if (cursorIdx s + 1) % (s.numRowPairs * s.numPlanes) = 0 then 1
       else 0) := by
  have hP : 0 < s.numPlanes := lt_of_le_of_lt (Nat.zero_le _) hp
  have hR : 0 < s.numRowPairs := lt_of_le_of_lt (Nat.zero_le _) hr
  by_cases h1 : s.plane + 1 ≥ s.numPlanes
  · have hpe : s.plane + 1 = s.numPlanes := by omega
    by_cases h2 : s.row + 1 ≥ s.numRowPairs
    · have hre : s.row + 1 = s.numRowPairs := by omega
      have hidx : cursorIdx s + 1 = s.numRowPairs * s.numPlanes := by
        unfold cursorIdx
        rw [Nat.add_assoc, hpe, ← hre, Nat.add_one_mul]
      rw [hidx, Nat.mod_self]
      refine ⟨?_, ?_, ?_, ?_, ?_⟩ <;>
        simp [_PM_row_handler, h1, h2, Nat.zero_div]
    · have hidx : cursorIdx s + 1 = (s.row + 1) * s.numPlanes := by
        unfold cursorIdx
        rw [Nat.add_assoc, hpe, Nat.add_one_mul]
      have hlt : (s.row + 1) * s.numPlanes < s.numRowPairs * s.numPlanes :=
        (Nat.mul_lt_mul_right hP).mpr (by omega)
      rw [hidx, Nat.mod_eq_of_lt hlt]
      have hne : ¬ (s.row + 1) * s.numPlanes = 0 := by positivity
      refine ⟨?_, ?_, ?_, ?_, ?_⟩ <;>
        simp [_PM_row_handler, h1, h2, Nat.mul_mod_left,
          Nat.mul_div_cancel _ hP, hne]
  · have hidx : cursorIdx s + 1 = s.row * s.numPlanes + (s.plane + 1) := by
      unfold cursorIdx
      rw [Nat.add_assoc]
    have hd := cursor_decode s.numPlanes s.numRowPairs s.row (s.plane + 1)
      (by omega) hr
    have hne : ¬ s.row * s.numPlanes + (s.plane + 1) = 0 := by simp
    rw [hidx, Nat.mod_eq_of_lt hd.1]
    refine ⟨?_, ?_, ?_, ?_, ?_⟩ <;>
      simp [_PM_row_handler, h1, hd.2.1, hd.2.2, hne]

/-- Iterated row-handler invocations: the linear cursor equals its start
plus the step count modulo numRowPairs * numPlanes, and frameCount counts
the completed wraps. -/
theorem rhIter_cursor (cs : Nat) (e : Nat → Nat) (s : PMState)
    (hp : s.plane < s.numPlanes) (hr : s.row < s.numRowPairs) :
    ∀ k : Nat,
    (rhIter cs e s k).numPlanes = s.numPlanes ∧
    (rhIter cs e s k).numRowPairs = s.numRowPairs ∧
    (rhIter cs e s k).plane =
      (cursorIdx s + k) % (s.numRowPairs * s.numPlanes) % s.numPlanes ∧
    (rhIter cs e s k).row =
      (cursorIdx s + k) % (s.numRowPairs * s.numPlanes) / s.numPlanes ∧
    (rhIter cs e s k).frameCount =
      s.frameCount + (cursorIdx s + k) / (s.numRowPairs * s.numPlanes) := by
  have hP : 0 < s.numPlanes := lt_of_le_of_lt (Nat.zero_le _) hp
  have hR : 0 < s.numRowPairs := lt_of_le_of_lt (Nat.zero_le _) hr
  have htot : 0 < s.numRowPairs * s.numPlanes := Nat.mul_pos hR hP
  have hd0 := cursor_decode s.numPlanes s.numRowPairs s.row s.plane hp hr
  have hc1 : cursorIdx s < s.numRowPairs * s.numPlanes := hd0.1
  have hc2 : cursorIdx s % s.numPlanes = s.plane := hd0.2.1
  have hc3 : cursorIdx s / s.numPlanes = s.row := hd0.2.2
  intro k
  induction k with
  | zero =>
    refine ⟨rfl, rfl, ?_, ?_, ?_⟩
    · show s.plane = _
      rw [Nat.add_zero, Nat.mod_eq_of_lt hc1, hc2]
    · show s.row = _
      rw [Nat.add_zero, Nat.mod_eq_of_lt hc1, hc3]
    · show s.frameCount = _
      rw [Nat.add_zero, Nat.div_eq_of_lt hc1, Nat.add_zero]
  | succ k ih =>
    obtain ⟨e1, e2, e3, e4, e5⟩ := ih
    have hxlt : (cursorIdx s + k) % (s.numRowPairs * s.numPlanes) <
        s.numRowPairs * s.numPlanes := Nat.mod_lt _ htot
    have hpk : (rhIter cs e s k).plane < (rhIter cs e s k).numPlanes := by
      rw [e1, e3]
      exact Nat.mod_lt _ hP
    have hrk : (rhIter cs e s k).row < (rhIter cs e s k).numRowPairs := by
      rw [e2, e4]
      exact (Nat.div_lt_iff_lt_mul hP).mpr hxlt
    have hidxk : cursorIdx (rhIter cs e s k) =
        (cursorIdx s + k) % (s.numRowPairs * s.numPlanes) := by
      unfold cursorIdx
      rw [e1, e3, e4]
      exact Nat.div_add_mod' _ _
    obtain ⟨s1, s2, s3, s4, s5⟩ :=
      row_handler_cursor_step cs (e k) (rhIter cs e s k) hpk hrk
    have hstep : rhIter cs e s (k + 1) =
        (_PM_row_handler cs (rhIter cs e s k) (e k)).st := rfl
    have hmod : (cursorIdx (rhIter cs e s k) + 1) %
        ((rhIter cs e s k).numRowPairs * (rhIter cs e s k).numPlanes) =
        (cursorIdx s + (k + 1)) % (s.numRowPairs * s.numPlanes) := by
      rw [hidxk, e1, e2, Nat.mod_add_mod, ← Nat.add_assoc]
    refine ⟨?_, ?_, ?_, ?_, ?_⟩
    · rw [hstep, s1, e1]
    · rw [hstep, s2, e2]
    · rw [hstep, s3, hmod, e1]
    · rw [hstep, s4, hmod, e1]
    · rw [hstep, s5, hmod, e5,
        show cursorIdx s + (k + 1) = cursorIdx s + k + 1 by omega,
        Nat.succ_div, Nat.add_assoc]
      congr 2
      exact if_congr Nat.dvd_iff_mod_eq_zero.symm rfl rfl

/-- C4: starting from any in-range cursor state, k row-handler invocations
put the cursor at the start index plus k in cyclic row-major order (plane
minor, row major) with period numRowPairs * numPlanes: the linear cursor
formula holds for every k, frameCount counts exactly the re-entries into
(row, plane) = (0, 0) (one increment per step that lands there, totalling
the number of completed wraps), every (row, plane) pair is visited within
one period, and after numRowPairs * numPlanes steps the cursor returns to
its start. -/
theorem claim_C4_cursor_cycle (cs : Nat) (e : Nat → Nat) (s : PMState)
    (k : Nat) (hp : s.plane < s.numPlanes) (hr : s.row < s.numRowPairs) :
    ((rhIter cs e s k).plane =
      (cursorIdx s + k) % (s.numRowPairs * s.numPlanes) % s.numPlanes ∧
     (rhIter cs e s k).row =
      (cursorIdx s + k) % (s.numRowPairs * s.numPlanes) / s.numPlanes) ∧
    (rhIter cs e s k).frameCount =
      s.frameCount + (cursorIdx s + k) / (s.numRowPairs * s.numPlanes) ∧
    ((rhIter cs e s (k + 1)).frameCount = (rhIter cs e s k).frameCount +
      (if (rhIter cs e s (k + 1)).row = 0 ∧ (rhIter cs e s (k + 1)).plane = 0
       then 1 else 0)) ∧
    (∀ r, r < s.numRowPairs → ∀ q, q < s.numPlanes →
      ∃ j, j < s.numRowPairs * s.numPlanes ∧
        (rhIter cs e s j).row = r ∧ (rhIter cs e s j).plane = q) ∧
    ((rhIter cs e s (s.numRowPairs * s.numPlanes)).row = s.row ∧
     (rhIter cs e s (s.numRowPairs * s.numPlanes)).plane = s.plane) := by
  have hP : 0 < s.numPlanes := lt_of_le_of_lt (Nat.zero_le _) hp
  have hR : 0 < s.numRowPairs := lt_of_le_of_lt (Nat.zero_le _) hr
  have htot : 0 < s.numRowPairs * s.numPlanes := Nat.mul_pos hR hP
  have hd0 := cursor_decode s.numPlanes s.numRowPairs s.row s.plane hp hr
  have hc1 : cursorIdx s < s.numRowPairs * s.numPlanes := hd0.1
  have hc2 : cursorIdx s % s.numPlanes = s.plane := hd0.2.1
  have hc3 : cursorIdx s / s.numPlanes = s.row := hd0.2.2
  have hiter := rhIter_cursor cs e s hp hr
  obtain ⟨-, -, h3, h4, h5⟩ := hiter k
  obtain ⟨-, -, g3, g4, g5⟩ := hiter (k + 1)
  rw [show cursorIdx s + (k + 1) = cursorIdx s + k + 1 by omega] at g3 g4 g5
  refine ⟨⟨h3, h4⟩, h5, ?_, ?_, ?_⟩
  · have hcond : ((rhIter cs e s (k + 1)).row = 0 ∧
        (rhIter cs e s (k + 1)).plane = 0) ↔
        (cursorIdx s + k + 1) % (s.numRowPairs * s.numPlanes) = 0 := by
      rw [g3, g4]
      constructor
      · rintro ⟨hrow0, hpl0⟩
        have hsplit := Nat.div_add_mod'
          ((cursorIdx s + k + 1) % (s.numRowPairs * s.numPlanes)) s.numPlanes
        rw [hrow0, hpl0] at hsplit
        simpa using hsplit.symm
      · intro h0
        rw [h0]
        exact ⟨Nat.zero_div _, Nat.zero_mod _⟩
    have hif : (if s.numRowPairs * s.numPlanes ∣ cursorIdx s + k + 1
          then 1 else 0) =
        (if (rhIter cs e s (k + 1)).row = 0 ∧
            (rhIter cs e s (k + 1)).plane = 0 then 1 else 0) :=
      if_congr (Nat.dvd_iff_mod_eq_zero.trans hcond.symm) rfl rfl
    rw [g5, h5, Nat.succ_div, hif, Nat.add_assoc]
  · intro r hrlt q hqlt
    have hd := cursor_decode s.numPlanes s.numRowPairs r q hqlt hrlt
    refine ⟨(r * s.numPlanes + q + s.numRowPairs * s.numPlanes - cursorIdx s) %
      (s.numRowPairs * s.numPlanes), Nat.mod_lt _ htot, ?_, ?_⟩
    · obtain ⟨-, -, j3, j4, -⟩ := hiter
        ((r * s.numPlanes + q + s.numRowPairs * s.numPlanes - cursorIdx s) %
          (s.numRowPairs * s.numPlanes))
      rw [j4]
      have hval : (cursorIdx s +
          (r * s.numPlanes + q + s.numRowPairs * s.numPlanes - cursorIdx s) %
            (s.numRowPairs * s.numPlanes)) %
          (s.numRowPairs * s.numPlanes) = r * s.numPlanes + q := by
        rw [Nat.add_comm (cursorIdx s), Nat.mod_add_mod,
          show r * s.numPlanes + q + s.numRowPairs * s.numPlanes -
            cursorIdx s + cursorIdx s =
            r * s.numPlanes + q + s.numRowPairs * s.numPlanes by omega,
          Nat.add_mod_right]
        exact Nat.mod_eq_of_lt hd.1
      rw [hval, hd.2.2]
    · obtain ⟨-, -, j3, j4, -⟩ := hiter
        ((r * s.numPlanes + q + s.numRowPairs * s.numPlanes - cursorIdx s) %
          (s.numRowPairs * s.numPlanes))
      rw [j3]
      have hval : (cursorIdx s +
          (r * s.numPlanes + q + s.numRowPairs * s.numPlanes - cursorIdx s) %
            (s.numRowPairs * s.numPlanes)) %
          (s.numRowPairs * s.numPlanes) = r * s.numPlanes + q := by
        rw [Nat.add_comm (cursorIdx s), Nat.mod_add_mod,
          show r * s.numPlanes + q + s.numRowPairs * s.numPlanes -
            cursorIdx s + cursorIdx s =
            r * s.numPlanes + q + s.numRowPairs * s.numPlanes by omega,
          Nat.add_mod_right]
        exact Nat.mod_eq_of_lt hd.1
      rw [hval, hd.2.1]
  · obtain ⟨-, -, t3, t4, -⟩ := hiter (s.numRowPairs * s.numPlanes)
    rw [t3, t4, Nat.add_mod_right, Nat.mod_eq_of_lt hc1, hc2, hc3]
    exact ⟨rfl, rfl⟩

/-- Witness for C4 at a concrete state (3 planes, 4 row pairs, cursor at
(row, plane) = (1, 2)) after 5 steps. -/
theorem claim_C4_witness :
    (((rhIter 8 elapsedW stateW2 5).plane =
      (cursorIdx stateW2 + 5) %
        (stateW2.numRowPairs * stateW2.numPlanes) % stateW2.numPlanes ∧
     (rhIter 8 elapsedW stateW2 5).row =
      (cursorIdx stateW2 + 5) %
        (stateW2.numRowPairs * stateW2.numPlanes) / stateW2.numPlanes) ∧
    (rhIter 8 elapsedW stateW2 5).frameCount =
      stateW2.frameCount + (cursorIdx stateW2 + 5) /
        (stateW2.numRowPairs * stateW2.numPlanes) ∧
    ((rhIter 8 elapsedW stateW2 (5 + 1)).frameCount =
      (rhIter 8 elapsedW stateW2 5).frameCount +
      (if (rhIter 8 elapsedW stateW2 (5 + 1)).row = 0 ∧
          (rhIter 8 elapsedW stateW2 (5 + 1)).plane = 0
       then 1 else 0)) ∧
    (∀ r, r < stateW2.numRowPairs → ∀ q, q < stateW2.numPlanes →
      ∃ j, j < stateW2.numRowPairs * stateW2.numPlanes ∧
        (rhIter 8 elapsedW stateW2 j).row = r ∧
        (rhIter 8 elapsedW stateW2 j).plane = q) ∧
    ((rhIter 8 elapsedW stateW2
        (stateW2.numRowPairs * stateW2.numPlanes)).row = stateW2.row ∧
     (rhIter 8 elapsedW stateW2
        (stateW2.numRowPairs * stateW2.numPlanes)).plane = stateW2.plane)) :=
  claim_C4_cursor_cycle 8 elapsedW stateW2 5 (by decide) (by decide)

/-- The gamma remap of input 0 is 0: pow(0, 2.6) = 0 and the +0.5 rounding
truncates to 0. -/
theorem gammaRemapVal_zero (den top : Nat) : gammaRemapVal den top 0 = 0 := by
  unfold gammaRemapVal
  rw [Nat.cast_zero, zero_div, Real.zero_rpow (by norm_num), zero_mul,
    zero_add]
  rw [Nat.floor_eq_iff (by norm_num)]
  norm_num

/-- The gamma remap of the full-scale input den is exactly top:
pow(1, 2.6) = 1 and top + 0.5 truncates to top. -/
theorem gammaRemapVal_top (den top : Nat) (hden : 0 < den) :
    gammaRemapVal den top den = top := by
  unfold gammaRemapVal
  rw [div_self (by exact_mod_cast hden.ne'), Real.one_rpow, one_mul]
  rw [Nat.floor_eq_iff (by positivity)]
  constructor
  · norm_num
  · norm_num

/-- Endpoints of the gamma-corrected red/blue table for numPlanes > 6. -/
theorem remap_rb_gamma_endpoints (n : Nat) (h6 : 6 < n) :
    remap_rb n 0 = 0 ∧ remap_rb n 31 = 2 ^ n - 1 := by
  unfold remap_rb
  constructor
  · rw [if_neg (by omega), if_neg (by omega)]
    exact gammaRemapVal_zero _ _
  · rw [if_neg (by omega), if_neg (by omega)]
    rw [gammaRemapVal_top 31 _ (by norm_num), Nat.shiftLeft_eq, one_mul]

/-- Endpoints of the gamma-corrected green table for numPlanes > 6. -/
theorem remap_g_gamma_endpoints (n : Nat) (h6 : 6 < n) :
    remap_g n 0 = 0 ∧ remap_g n 63 = 2 ^ n - 1 := by
  unfold remap_g
  constructor
  · rw [if_neg (by omega), if_neg (by omega)]
    exact gammaRemapVal_zero _ _
  · rw [if_neg (by omega), if_neg (by omega)]
    rw [gammaRemapVal_top 63 _ (by norm_num), Nat.shiftLeft_eq, one_mul]

/-- C7: for every numPlanes in [1, 12], the remap tables built by _PM_begin
map input 0 to 0 and the full-scale inputs 31 (red/blue) and 63 (green) to
2 ^ numPlanes - 1, in all three construction cases (right shift below 6
planes, replication/identity at 6 planes, gamma rounding above 6). -/
theorem claim_C7_remap_endpoints (n : Nat) (h1 : 1 ≤ n) (h2 : n ≤ 12) :
    remap_rb n 0 = 0 ∧ remap_rb n 31 = 2 ^ n - 1 ∧
    remap_g n 0 = 0 ∧ remap_g n 63 = 2 ^ n - 1 := by
  by_cases h6 : n ≤ 6
  · interval_cases n <;>
      exact ⟨by decide, by decide, by decide, by decide⟩
  · have h6' : 6 < n := by omega
    exact ⟨(remap_rb_gamma_endpoints n h6').1,
      (remap_rb_gamma_endpoints n h6').2,
      (remap_g_gamma_endpoints n h6').1,
      (remap_g_gamma_endpoints n h6').2⟩

/-- Witness for C7 at numPlanes = 8 (the gamma case). -/
theorem claim_C7_witness :
    (1 ≤ 8 ∧ 8 ≤ 12) ∧
    (remap_rb 8 0 = 0 ∧ remap_rb 8 31 = 2 ^ 8 - 1 ∧
     remap_g 8 0 = 0 ∧ remap_g 8 63 = 2 ^ 8 - 1) :=
  ⟨⟨by decide, by decide⟩, claim_C7_remap_endpoints 8 (by decide) (by decide)⟩

/-- A mask absorbs a value iff it covers every set bit of the value. -/
theorem and_eq_self_iff_testBit (m a : Nat) :
    m &&& a = m ↔ ∀ i, m.testBit i = true → a.testBit i = true := by
  constructor
  · intro h i hi
    have hcongr : (m &&& a).testBit i = m.testBit i := by rw [h]
    rw [Nat.testBit_and, hi, Bool.true_and] at hcongr
    exact hcongr
  · intro h
    apply Nat.eq_of_testBit_eq
    intro i
    rw [Nat.testBit_and]
    cases hmb : m.testBit i with
    | false => rw [Bool.false_and]
    | true => rw [h i hmb, Bool.and_true]

/-- A conjunction with a mask vanishes iff the mask misses every set bit. -/
theorem and_eq_zero_iff_testBit (m a : Nat) :
    m &&& a = 0 ↔ ∀ i, m.testBit i = true → a.testBit i = false := by
  constructor
  · intro h i hi
    have hcongr : (m &&& a).testBit i = (0 : Nat).testBit i := by rw [h]
    rw [Nat.testBit_and, hi, Bool.true_and, Nat.zero_testBit] at hcongr
    exact hcongr
  · intro h
    apply Nat.eq_of_testBit_eq
    intro i
    rw [Nat.testBit_and, Nat.zero_testBit]
    cases hmb : m.testBit i with
    | false => rw [Bool.false_and]
    | true => rw [h i hmb, Bool.and_false]

/-- A nonzero natural number has a set bit. -/
theorem exists_testBit_of_ne_zero {m : Nat} (h : m ≠ 0) :
    ∃ i, m.testBit i = true := by
  by_contra hcon
  push_neg at hcon
  apply h
  apply Nat.eq_of_testBit_eq
  intro i
  rw [Nat.zero_testBit]
  exact Bool.eq_false_iff.mpr (hcon i)

/-- Set bits of a 32-bit value lie below position 32. -/
theorem testBit_lt32 {m : Nat} (h32 : m < 4294967296) {i : Nat}
    (hi : m.testBit i = true) : i < 32 := by
  by_contra hge
  push_neg at hge
  have hlt : m < 2 ^ i :=
    lt_of_lt_of_le h32 (by
      calc (4294967296 : Nat) = 2 ^ 32 := by norm_num
        _ ≤ 2 ^ i := Nat.pow_le_pow_right (by norm_num) hge)
  rw [Nat.testBit_lt_two_pow hlt] at hi
  exact Bool.false_ne_true hi

/-- Bits of a shifted all-ones block form a contiguous index interval. -/
theorem testBit_ones_shift (w k i : Nat) :
    ((2 ^ w - 1) <<< k).testBit i = decide (k ≤ i ∧ i < k + w) := by
  rw [Nat.testBit_shiftLeft, Nat.testBit_two_pow_sub_one]
  rcases Nat.lt_or_ge i k with h | h
  · rw [decide_eq_false (by omega), Bool.false_and, eq_comm,
      decide_eq_false_iff_not]
    omega
  · rw [decide_eq_true h, Bool.true_and, decide_eq_decide]
    omega

/-- Bit interval of the octet-0 mask. -/
theorem testBit_FF (i : Nat) : (0xFF : Nat).testBit i = decide (i < 8) := by
  rw [show (0xFF : Nat) = 2 ^ 8 - 1 by decide, Nat.testBit_two_pow_sub_one]

/-- Bit interval of the octet-1 mask. -/
theorem testBit_FF00 (i : Nat) :
    (0xFF00 : Nat).testBit i = decide (8 ≤ i ∧ i < 16) := by
  rw [show (0xFF00 : Nat) = (2 ^ 8 - 1) <<< 8 by decide, testBit_ones_shift]

/-- Bit interval of the octet-2 mask. -/
theorem testBit_FF0000 (i : Nat) :
    (0xFF0000 : Nat).testBit i = decide (16 ≤ i ∧ i < 24) := by
  rw [show (0xFF0000 : Nat) = (2 ^ 8 - 1) <<< 16 by decide, testBit_ones_shift]

/-- Bit interval of the octet-3 mask. -/
theorem testBit_FF000000 (i : Nat) :
    (0xFF000000 : Nat).testBit i = decide (24 ≤ i ∧ i < 32) := by
  rw [show (0xFF000000 : Nat) = (2 ^ 8 - 1) <<< 24 by decide,
    testBit_ones_shift]

/-- Bit interval of the lower half-word mask. -/
theorem testBit_FFFF (i : Nat) :
    (0xFFFF : Nat).testBit i = decide (i < 16) := by
  rw [show (0xFFFF : Nat) = 2 ^ 16 - 1 by decide, Nat.testBit_two_pow_sub_one]

/-- Bit interval of the upper half-word mask. -/
theorem testBit_FFFF0000 (i : Nat) :
    (0xFFFF0000 : Nat).testBit i = decide (16 ≤ i ∧ i < 32) := by
  rw [show (0xFFFF0000 : Nat) = (2 ^ 16 - 1) <<< 16 by decide,
    testBit_ones_shift]

/-- Bit interval of the middle (octets 1-2) mask. -/
theorem testBit_FFFF00 (i : Nat) :
    (0xFFFF00 : Nat).testBit i = decide (8 ≤ i ∧ i < 24) := by
  rw [show (0xFFFF00 : Nat) = (2 ^ 16 - 1) <<< 8 by decide, testBit_ones_shift]

/-- An interval mask clears a value whose set bits all avoid the interval. -/
theorem and_eq_zero_of_mask (m c : Nat) (f : Nat → Prop) [DecidablePred f]
    (hc : ∀ i, c.testBit i = decide (f i))
    (h : ∀ i, m.testBit i = true → ¬ f i) : m &&& c = 0 :=
  (and_eq_zero_iff_testBit m c).mpr fun i hi => by
    rw [hc i, decide_eq_false_iff_not]
    exact h i hi

/-- An interval mask absorbs a value whose set bits all lie inside. -/
theorem and_eq_self_of_mask (m c : Nat) (f : Nat → Prop) [DecidablePred f]
    (hc : ∀ i, c.testBit i = decide (f i))
    (h : ∀ i, m.testBit i = true → f i) : m &&& c = m :=
  (and_eq_self_iff_testBit m c).mpr fun i hi => by
    rw [hc i, decide_eq_true_eq]
    exact h i hi

/-- Set bits of a value absorbed by an interval mask lie in the interval. -/
theorem range_of_and_self (m c : Nat) (f : Nat → Prop) [DecidablePred f]
    (hc : ∀ i, c.testBit i = decide (f i))
    (h : m &&& c = m) : ∀ i, m.testBit i = true → f i := fun i hi => by
  have hx := (and_eq_self_iff_testBit m c).mp h i hi
  rw [hc i, decide_eq_true_eq] at hx
  exact hx

/-- Set bits of a value cleared by an interval mask avoid the interval. -/
theorem notrange_of_and_zero (m c : Nat) (f : Nat → Prop) [DecidablePred f]
    (hc : ∀ i, c.testBit i = decide (f i))
    (h : m &&& c = 0) : ∀ i, m.testBit i = true → ¬ f i := fun i hi => by
  have hx := (and_eq_zero_iff_testBit m c).mp h i hi
  rw [hc i, decide_eq_false_iff_not] at hx
  exact hx

/-- C1: for every nonzero 32-bit union bitMask of the RGB pin masks (plus
the clock mask when a toggle register exists), the planner picks
bytesPerElement = 1 when all set bits lie in a single octet; 2 when they lie
in the lower or upper half-word (and not in a single octet); and 4 in every
other case — including bits spanning only the middle octets 1-2 — with
portOffset = 0 in the 4-byte case. -/
theorem claim_C1_element_width (m byteOff wordOff : Nat)
    (h32 : m < 4294967296) (hnz : m ≠ 0) :
    (inSingleOctet m → bytesPerElementOf m = 1) ∧
    (¬ inSingleOctet m → inLowerHalfWord m ∨ inUpperHalfWord m →
      bytesPerElementOf m = 2) ∧
    (¬ inSingleOctet m → ¬ inLowerHalfWord m → ¬ inUpperHalfWord m →
      bytesPerElementOf m = 4 ∧
      portOffsetSel (bytesPerElementOf m) byteOff wordOff = 0) ∧
    (m &&& 0xFFFF00 = m → m &&& 0xFF00 ≠ 0 → m &&& 0xFF0000 ≠ 0 →
      bytesPerElementOf m = 4 ∧
      portOffsetSel (bytesPerElementOf m) byteOff wordOff = 0) := by
  have hfin : bytesPerElementOf m = 4 →
      bytesPerElementOf m = 4 ∧
      portOffsetSel (bytesPerElementOf m) byteOff wordOff = 0 := fun h4 =>
    ⟨h4, by simp [portOffsetSel, h4]⟩
  refine ⟨?_, ?_, ?_, ?_⟩
  · rintro (h | h | h | h)
    · have hrange := range_of_and_self m 0xFF _ testBit_FF h
      have h1z : m &&& 0xFF00 = 0 := and_eq_zero_of_mask m 0xFF00 _
        testBit_FF00 (fun i hi => by have := hrange i hi; omega)
      have h2z : m &&& 0xFF0000 = 0 := and_eq_zero_of_mask m 0xFF0000 _
        testBit_FF0000 (fun i hi => by have := hrange i hi; omega)
      have h3z : m &&& 0xFF000000 = 0 := and_eq_zero_of_mask m 0xFF000000 _
        testBit_FF000000 (fun i hi => by have := hrange i hi; omega)
      have h0nz : m &&& 0xFF ≠ 0 := by rw [h]; exact hnz
      have hbm : byteMaskOf m = 1 := by
        unfold byteMaskOf
        rw [if_neg (by simp [h3z]), if_neg (by simp [h2z]),
          if_neg (by simp [h1z]), if_pos h0nz]
        decide
      unfold bytesPerElementOf
      rw [hbm]
    · have hrange := range_of_and_self m 0xFF00 _ testBit_FF00 h
      have h0z : m &&& 0xFF = 0 := and_eq_zero_of_mask m 0xFF _
        testBit_FF (fun i hi => by have := hrange i hi; omega)
      have h2z : m &&& 0xFF0000 = 0 := and_eq_zero_of_mask m 0xFF0000 _
        testBit_FF0000 (fun i hi => by have := hrange i hi; omega)
      have h3z : m &&& 0xFF000000 = 0 := and_eq_zero_of_mask m 0xFF000000 _
        testBit_FF000000 (fun i hi => by have := hrange i hi; omega)
      have h1nz : m &&& 0xFF00 ≠ 0 := by rw [h]; exact hnz
      have hbm : byteMaskOf m = 2 := by
        unfold byteMaskOf
        rw [if_neg (by simp [h3z]), if_neg (by simp [h2z]), if_pos h1nz,
          if_neg (by simp [h0z])]
        decide
      unfold bytesPerElementOf
      rw [hbm]
    · have hrange := range_of_and_self m 0xFF0000 _ testBit_FF0000 h
      have h0z : m &&& 0xFF = 0 := and_eq_zero_of_mask m 0xFF _
        testBit_FF (fun i hi => by have := hrange i hi; omega)
      have h1z : m &&& 0xFF00 = 0 := and_eq_zero_of_mask m 0xFF00 _
        testBit_FF00 (fun i hi => by have := hrange i hi; omega)
      have h3z : m &&& 0xFF000000 = 0 := and_eq_zero_of_mask m 0xFF000000 _
        testBit_FF000000 (fun i hi => by have := hrange i hi; omega)
      have h2nz : m &&& 0xFF0000 ≠ 0 := by rw [h]; exact hnz
      have hbm : byteMaskOf m = 4 := by
        unfold byteMaskOf
        rw [if_neg (by simp [h3z]), if_pos h2nz, if_neg (by simp [h1z]),
          if_neg (by simp [h0z])]
        decide
      unfold bytesPerElementOf
      rw [hbm]
    · have hrange := range_of_and_self m 0xFF000000 _ testBit_FF000000 h
      have h0z : m &&& 0xFF = 0 := and_eq_zero_of_mask m 0xFF _
        testBit_FF (fun i hi => by have := hrange i hi; omega)
      have h1z : m &&& 0xFF00 = 0 := and_eq_zero_of_mask m 0xFF00 _
        testBit_FF00 (fun i hi => by have := hrange i hi; omega)
      have h2z : m &&& 0xFF0000 = 0 := and_eq_zero_of_mask m 0xFF0000 _
        testBit_FF0000 (fun i hi => by have := hrange i hi; omega)
      have h3nz : m &&& 0xFF000000 ≠ 0 := by rw [h]; exact hnz
      have hbm : byteMaskOf m = 8 := by
        unfold byteMaskOf
        rw [if_pos h3nz, if_neg (by simp [h2z]), if_neg (by simp [h1z]),
          if_neg (by simp [h0z])]
        decide
      unfold bytesPerElementOf
      rw [hbm]
  · rintro hns (h | h)
    · have hrange := range_of_and_self m 0xFFFF _ testBit_FFFF h
      have h2z : m &&& 0xFF0000 = 0 := and_eq_zero_of_mask m 0xFF0000 _
        testBit_FF0000 (fun i hi => by have := hrange i hi; omega)
      have h3z : m &&& 0xFF000000 = 0 := and_eq_zero_of_mask m 0xFF000000 _
        testBit_FF000000 (fun i hi => by have := hrange i hi; omega)
      have h0nz : m &&& 0xFF ≠ 0 := by
        intro h0z
        exact hns (Or.inr (Or.inl (and_eq_self_of_mask m 0xFF00 _
          testBit_FF00 (fun i hi => by
            have hx := hrange i hi
            have hy := notrange_of_and_zero m 0xFF _ testBit_FF h0z i hi
            omega))))
      have h1nz : m &&& 0xFF00 ≠ 0 := by
        intro h1z
        exact hns (Or.inl (and_eq_self_of_mask m 0xFF _
          testBit_FF (fun i hi => by
            have hx := hrange i hi
            have hy := notrange_of_and_zero m 0xFF00 _ testBit_FF00 h1z i hi
            omega)))
      have hbm : byteMaskOf m = 3 := by
        unfold byteMaskOf
        rw [if_neg (by simp [h3z]), if_neg (by simp [h2z]), if_pos h1nz,
          if_pos h0nz]
        decide
      unfold bytesPerElementOf
      rw [hbm]
    · have hrange := range_of_and_self m 0xFFFF0000 _ testBit_FFFF0000 h
      have h0z : m &&& 0xFF = 0 := and_eq_zero_of_mask m 0xFF _
        testBit_FF (fun i hi => by have := hrange i hi; omega)
      have h1z : m &&& 0xFF00 = 0 := and_eq_zero_of_mask m 0xFF00 _
        testBit_FF00 (fun i hi => by have := hrange i hi; omega)
      have h2nz : m &&& 0xFF0000 ≠ 0 := by
        intro h2z
        exact hns (Or.inr (Or.inr (Or.inr (and_eq_self_of_mask m 0xFF000000 _
          testBit_FF000000 (fun i hi => by
            have hx := hrange i hi
            have hy := notrange_of_and_zero m 0xFF0000 _ testBit_FF0000
              h2z i hi
            omega)))))
      have h3nz : m &&& 0xFF000000 ≠ 0 := by
        intro h3z
        exact hns (Or.inr (Or.inr (Or.inl (and_eq_self_of_mask m 0xFF0000 _
          testBit_FF0000 (fun i hi => by
            have hx := hrange i hi
            have hy := notrange_of_and_zero m 0xFF000000 _ testBit_FF000000
              h3z i hi
            omega)))))
      have hbm : byteMaskOf m = 12 := by
        unfold byteMaskOf
        rw [if_pos h3nz, if_pos h2nz, if_neg (by simp [h1z]),
          if_neg (by simp [h0z])]
        decide
      unfold bytesPerElementOf
      rw [hbm]
  · intro hns hnl hnu
    by_cases h0 : m &&& 0xFF = 0 <;> by_cases h1 : m &&& 0xFF00 = 0 <;>
      by_cases h2 : m &&& 0xFF0000 = 0 <;> by_cases h3 : m &&& 0xFF000000 = 0
    · exfalso
      obtain ⟨i, hi⟩ := exists_testBit_of_ne_zero hnz
      have hi32 := testBit_lt32 h32 hi
      have e0 := notrange_of_and_zero m 0xFF _ testBit_FF h0 i hi
      have e1 := notrange_of_and_zero m 0xFF00 _ testBit_FF00 h1 i hi
      have e2 := notrange_of_and_zero m 0xFF0000 _ testBit_FF0000 h2 i hi
      have e3 := notrange_of_and_zero m 0xFF000000 _ testBit_FF000000 h3 i hi
      omega
    · exact absurd (Or.inr (Or.inr (Or.inr (and_eq_self_of_mask m 0xFF000000 _
        testBit_FF000000 (fun i hi => by
          have hi32 := testBit_lt32 h32 hi
          have e0 := notrange_of_and_zero m 0xFF _ testBit_FF h0 i hi
          have e1 := notrange_of_and_zero m 0xFF00 _ testBit_FF00 h1 i hi
          have e2 := notrange_of_and_zero m 0xFF0000 _ testBit_FF0000 h2 i hi
          omega))))) hns
    · exact absurd (Or.inr (Or.inr (Or.inl (and_eq_self_of_mask m 0xFF0000 _
        testBit_FF0000 (fun i hi => by
          have hi32 := testBit_lt32 h32 hi
          have e0 := notrange_of_and_zero m 0xFF _ testBit_FF h0 i hi
          have e1 := notrange_of_and_zero m 0xFF00 _ testBit_FF00 h1 i hi
          have e3 := notrange_of_and_zero m 0xFF000000 _ testBit_FF000000
            h3 i hi
          omega))))) hns
    · exact absurd (and_eq_self_of_mask m 0xFFFF0000 _ testBit_FFFF0000
        (fun i hi => by
          have hi32 := testBit_lt32 h32 hi
          have e0 := notrange_of_and_zero m 0xFF _ testBit_FF h0 i hi
          have e1 := notrange_of_and_zero m 0xFF00 _ testBit_FF00 h1 i hi
          omega)) hnu
    · exact absurd (Or.inr (Or.inl (and_eq_self_of_mask m 0xFF00 _
        testBit_FF00 (fun i hi => by
          have hi32 := testBit_lt32 h32 hi
          have e0 := notrange_of_and_zero m 0xFF _ testBit_FF h0 i hi
          have e2 := notrange_of_and_zero m 0xFF0000 _ testBit_FF0000 h2 i hi
          have e3 := notrange_of_and_zero m 0xFF000000 _ testBit_FF000000
            h3 i hi
          omega)))) hns
    · apply hfin
      have hbm : byteMaskOf m = 10 := by
        unfold byteMaskOf
        rw [if_pos h3, if_neg (by simp [h2]), if_pos h1,
          if_neg (by simp [h0])]
        decide
      unfold bytesPerElementOf
      rw [hbm]
    · apply hfin
      have hbm : byteMaskOf m = 6 := by
        unfold byteMaskOf
        rw [if_neg (by simp [h3]), if_pos h2, if_pos h1,
          if_neg (by simp [h0])]
        decide
      unfold bytesPerElementOf
      rw [hbm]
    · apply hfin
      have hbm : byteMaskOf m = 14 := by
        unfold byteMaskOf
        rw [if_pos h3, if_pos h2, if_pos h1, if_neg (by simp [h0])]
        decide
      unfold bytesPerElementOf
      rw [hbm]
    · exact absurd (Or.inl (and_eq_self_of_mask m 0xFF _
        testBit_FF (fun i hi => by
          have hi32 := testBit_lt32 h32 hi
          have e1 := notrange_of_and_zero m 0xFF00 _ testBit_FF00 h1 i hi
          have e2 := notrange_of_and_zero m 0xFF0000 _ testBit_FF0000 h2 i hi
          have e3 := notrange_of_and_zero m 0xFF000000 _ testBit_FF000000
            h3 i hi
          omega))) hns
    · apply hfin
      have hbm : byteMaskOf m = 9 := by
        unfold byteMaskOf
        rw [if_pos h3, if_neg (by simp [h2]), if_neg (by simp [h1]),
          if_pos h0]
        decide
      unfold bytesPerElementOf
      rw [hbm]
    · apply hfin
      have hbm : byteMaskOf m = 5 := by
        unfold byteMaskOf
        rw [if_neg (by simp [h3]), if_pos h2, if_neg (by simp [h1]),
          if_pos h0]
        decide
      unfold bytesPerElementOf
      rw [hbm]
    · apply hfin
      have hbm : byteMaskOf m = 13 := by
        unfold byteMaskOf
        rw [if_pos h3, if_pos h2, if_neg (by simp [h1]), if_pos h0]
        decide
      unfold bytesPerElementOf
      rw [hbm]
    · exact absurd (and_eq_self_of_mask m 0xFFFF _ testBit_FFFF
        (fun i hi => by
          have hi32 := testBit_lt32 h32 hi
          have e2 := notrange_of_and_zero m 0xFF0000 _ testBit_FF0000 h2 i hi
          have e3 := notrange_of_and_zero m 0xFF000000 _ testBit_FF000000
            h3 i hi
          omega)) hnl
    · apply hfin
      have hbm : byteMaskOf m = 11 := by
        unfold byteMaskOf
        rw [if_pos h3, if_neg (by simp [h2]), if_pos h1, if_pos h0]
        decide
      unfold bytesPerElementOf
      rw [hbm]
    · apply hfin
      have hbm : byteMaskOf m = 7 := by
        unfold byteMaskOf
        rw [if_neg (by simp [h3]), if_pos h2, if_pos h1, if_pos h0]
        decide
      unfold bytesPerElementOf
      rw [hbm]
    · apply hfin
      have hbm : byteMaskOf m = 15 := by
        unfold byteMaskOf
        rw [if_pos h3, if_pos h2, if_pos h1, if_pos h0]
        decide
      unfold bytesPerElementOf
      rw [hbm]
  · intro h hm1 hm2
    have hrange := range_of_and_self m 0xFFFF00 _ testBit_FFFF00 h
    have h0z : m &&& 0xFF = 0 := and_eq_zero_of_mask m 0xFF _
      testBit_FF (fun i hi => by have := hrange i hi; omega)
    have h3z : m &&& 0xFF000000 = 0 := and_eq_zero_of_mask m 0xFF000000 _
      testBit_FF000000 (fun i hi => by have := hrange i hi; omega)
    apply hfin
    have hbm : byteMaskOf m = 6 := by
      unfold byteMaskOf
      rw [if_neg (by simp [h3z]), if_pos hm2, if_pos hm1,
        if_neg (by simp [h0z])]
      decide
    unfold bytesPerElementOf
    rw [hbm]

/-- Witness for C1 at the concrete mask 0x18000, whose bits span only the
middle octets 1 and 2 (the unaligned middle half-word case). -/
theorem claim_C1_witness :
    (inSingleOctet 0x18000 → bytesPerElementOf 0x18000 = 1) ∧
    (¬ inSingleOctet 0x18000 →
      inLowerHalfWord 0x18000 ∨ inUpperHalfWord 0x18000 →
      bytesPerElementOf 0x18000 = 2) ∧
    (¬ inSingleOctet 0x18000 → ¬ inLowerHalfWord 0x18000 →
      ¬ inUpperHalfWord 0x18000 →
      bytesPerElementOf 0x18000 = 4 ∧
      portOffsetSel (bytesPerElementOf 0x18000) 3 1 = 0) ∧
    (0x18000 &&& 0xFFFF00 = 0x18000 → 0x18000 &&& 0xFF00 ≠ 0 →
      0x18000 &&& 0xFF0000 ≠ 0 →
      bytesPerElementOf 0x18000 = 4 ∧
      portOffsetSel (bytesPerElementOf 0x18000) 3 1 = 0) :=
  claim_C1_element_width 0x18000 3 1 (by decide) (by decide)

end Protomatter
